import Mathlib

/-!
Verification of the trajectory-generation scripts of the openscenario
repository. Python floating-point arithmetic is embedded as exact real
arithmetic over ℝ; Python's float `%` (sign of the divisor) is embedded
as `pymod`; `int(...)` truncation of a nonnegative quantity is embedded
as `Int.toNat ∘ Int.floor`. Each definition mirrors one function or
inline code block of the source scripts.
-/

namespace OpenScenario

noncomputable section

open Real

/-- One emitted trajectory sample: a timestamp and a pose (x, y, heading),
as stored in the Python dicts appended by the generator loops. -/
structure Sample where
  t : ℝ
  x : ℝ
  y : ℝ
  h : ℝ

/-- Python's `math.atan2(y, x)`: the angle of the vector (x, y) in (−π, π]. -/
def atan2 (y x : ℝ) : ℝ :=
  if 0 < x then Real.arctan (y / x)
  else if x < 0 then
    (if 0 ≤ y then Real.arctan (y / x) + Real.pi else Real.arctan (y / x) - Real.pi)
  else
    (if 0 < y then Real.pi / 2 else if y < 0 then -(Real.pi / 2) else 0)

/-- Python's float modulo `x % y` for y > 0: the representative of x modulo y
lying in [0, y), computed as x − y·⌊x / y⌋. -/
def pymod (x y : ℝ) : ℝ := x - y * ⌊x / y⌋

/-- `normalize_angle` of `VUTstraight_round.py` (line 27) and
`generate_VT1.py` (line 62): `(a + math.pi) % (2 * math.pi) - math.pi`. -/
def normalize_angle (a : ℝ) : ℝ := pymod (a + Real.pi) (2 * Real.pi) - Real.pi

/-- `calc_point_on_arc` of `track.py` (lines 38–50): samples a point at
arc-length offset s on a line (when |k| < 1e-6) or on a constant-curvature
arc, returning (x, y, h). -/
def calc_point_on_arc (x0 y0 h0 s k : ℝ) : ℝ × ℝ × ℝ :=
  if |k| < 1 / 1000000 then
    (x0 + s * Real.cos h0, y0 + s * Real.sin h0, h0)
  else
    let h := h0 + s * k
    (x0 + (Real.sin h - Real.sin h0) / k, y0 + (Real.cos h0 - Real.cos h) / k, h)

/-- `calc_coords` of `keshihua.py` (lines 26–36): identical to
`calc_point_on_arc` except that its straight-line threshold is 1e-9. -/
def calc_coords (x0 y0 h0 s k : ℝ) : ℝ × ℝ × ℝ :=
  if |k| < 1 / 1000000000 then
    (x0 + s * Real.cos h0, y0 + s * Real.sin h0, h0)
  else
    let h := h0 + s * k
    (x0 + (Real.sin h - Real.sin h0) / k, y0 + (Real.cos h0 - Real.cos h) / k, h)

/-- The kinematic-profile time of `calculate_trajectory_points`
(`VT1accTrajectory.py` lines 124–135), generalized over the script's
constants `TARGET_SPEED_MS` (V) and `ACC` (a): below the acceleration
distance V²/(2a) the time is √(2d/a) with an explicit guard returning 0
at d ≤ 0; beyond it the time is V/a + (d − V²/(2a))/V. -/
def kinTime (V a d : ℝ) : ℝ :=
  if d ≤ V ^ 2 / (2 * a) then
    (if 0 < d then Real.sqrt (2 * d / a) else 0)
  else
    V / a + (d - V ^ 2 / (2 * a)) / V

/-- The kinematic-profile velocity of `calculate_trajectory_points`
(`VT1accTrajectory.py` lines 124–135): `ACC * current_time` on the
acceleration branch, the target speed V on the cruise branch. -/
def kinVel (V a d : ℝ) : ℝ :=
  if d ≤ V ^ 2 / (2 * a) then a * kinTime V a d else V

/-- The exceptions Python can raise in the kinematic computation:
`ZeroDivisionError` from a float division by zero, and `ValueError`
(math domain error) from `math.sqrt` of a negative number. -/
inductive PyErr where
  | zeroDivision : PyErr
  | mathDomain : PyErr
deriving DecidableEq

/-- The kinematic profile of `VT1accTrajectory.py` (lines 25–26 and
124–135) with Python's failure behaviour made explicit: computing
`acc_distance = V**2/(2*a)` and `acc_time_duration = V/a` raises
ZeroDivisionError when a = 0; `math.sqrt(2*d/a)` raises a math domain
error when its argument is negative; `dist_in_cruise / V` raises
ZeroDivisionError when V = 0. Otherwise it returns (time, velocity). -/
def kinProfileE (V a d : ℝ) : Except PyErr (ℝ × ℝ) :=
  if 2 * a = 0 then Except.error PyErr.zeroDivision
  else
    if d ≤ V ^ 2 / (2 * a) then
      if 0 < d then
        if 2 * d / a < 0 then Except.error PyErr.mathDomain
        else Except.ok (Real.sqrt (2 * d / a), a * Real.sqrt (2 * d / a))
      else Except.ok (0, 0)
    else
      if V = 0 then Except.error PyErr.zeroDivision
      else Except.ok (V / a + (d - V ^ 2 / (2 * a)) / V, V)

/-- The coefficient record of `QuinticPolynomial` in `generate_VT1.py`
(lines 39–60). -/
structure Quintic where
  a0 : ℝ
  a1 : ℝ
  a2 : ℝ
  a3 : ℝ
  a4 : ℝ
  a5 : ℝ

/-- `det_A` of `QuinticPolynomial.__init__` (line 49): the 3×3 determinant
of the matrix with rows (t³, t⁴, t⁵), (3t², 4t³, 5t⁴), (6t, 12t², 20t³). -/
def quinticDetA (t : ℝ) : ℝ :=
  t ^ 3 * (4 * t ^ 3 * (20 * t ^ 3) - 5 * t ^ 4 * (12 * t ^ 2))
    - t ^ 4 * (3 * t ^ 2 * (20 * t ^ 3) - 5 * t ^ 4 * (6 * t))
    + t ^ 5 * (3 * t ^ 2 * (12 * t ^ 2) - 4 * t ^ 3 * (6 * t))

/-- `b1` of `QuinticPolynomial.__init__` (line 46):
`xe - a0 - a1*t - a2*t2` with a0 = xs, a1 = vxs, a2 = axs/2. -/
def quinticB1 (xs vxs axs xe t : ℝ) : ℝ :=
  xe - xs - vxs * t - axs / 2 * t ^ 2

/-- `b2` of `QuinticPolynomial.__init__` (line 47):
`vxe - a1 - 2*a2*t`. -/
def quinticB2 (vxs axs vxe t : ℝ) : ℝ :=
  vxe - vxs - 2 * (axs / 2) * t

/-- `b3` of `QuinticPolynomial.__init__` (line 48): `axe - 2*a2`. -/
def quinticB3 (axs axe : ℝ) : ℝ :=
  axe - 2 * (axs / 2)

/-- `det_X` of `QuinticPolynomial.__init__` (line 50): the first Cramer
determinant, with (b1, b2, b3) substituted for the first column. -/
def quinticDetX (b1 b2 b3 t : ℝ) : ℝ :=
  b1 * (4 * t ^ 3 * (20 * t ^ 3) - 5 * t ^ 4 * (12 * t ^ 2))
    - t ^ 4 * (b2 * (20 * t ^ 3) - 5 * t ^ 4 * b3)
    + t ^ 5 * (b2 * (12 * t ^ 2) - 4 * t ^ 3 * b3)

/-- `det_Y` of `QuinticPolynomial.__init__` (line 51): the second Cramer
determinant, with (b1, b2, b3) substituted for the second column. -/
def quinticDetY (b1 b2 b3 t : ℝ) : ℝ :=
  t ^ 3 * (b2 * (20 * t ^ 3) - 5 * t ^ 4 * b3)
    - b1 * (3 * t ^ 2 * (20 * t ^ 3) - 5 * t ^ 4 * (6 * t))
    + t ^ 5 * (3 * t ^ 2 * b3 - b2 * (6 * t))

/-- `det_Z` of `QuinticPolynomial.__init__` (line 52): the third Cramer
determinant, with (b1, b2, b3) substituted for the third column. -/
def quinticDetZ (b1 b2 b3 t : ℝ) : ℝ :=
  t ^ 3 * (4 * t ^ 3 * b3 - b2 * (12 * t ^ 2))
    - t ^ 4 * (3 * t ^ 2 * b3 - b2 * (6 * t))
    + b1 * (3 * t ^ 2 * (12 * t ^ 2) - 4 * t ^ 3 * (6 * t))

/-- `QuinticPolynomial.__init__` (`generate_VT1.py` lines 40–53): the
bottom coefficients come from the boundary data at t = 0 and the top
three from Cramer's rule on the 3×3 system. -/
def mkQuintic (xs vxs axs xe vxe axe time : ℝ) : Quintic :=
  let b1 := quinticB1 xs vxs axs xe time
  let b2 := quinticB2 vxs axs vxe time
  let b3 := quinticB3 axs axe
  ⟨xs, vxs, axs / 2,
    quinticDetX b1 b2 b3 time / quinticDetA time,
    quinticDetY b1 b2 b3 time / quinticDetA time,
    quinticDetZ b1 b2 b3 time / quinticDetA time⟩

/-- `QuinticPolynomial.calc_point` (lines 55–56). -/
def calc_point (q : Quintic) (t : ℝ) : ℝ :=
  q.a0 + q.a1 * t + q.a2 * t ^ 2 + q.a3 * t ^ 3 + q.a4 * t ^ 4 + q.a5 * t ^ 5

/-- `QuinticPolynomial.calc_first_derivative` (lines 57–58). -/
def calc_first_derivative (q : Quintic) (t : ℝ) : ℝ :=
  q.a1 + 2 * q.a2 * t + 3 * q.a3 * t ^ 2 + 4 * q.a4 * t ^ 3 + 5 * q.a5 * t ^ 4

/-- `QuinticPolynomial.calc_second_derivative` (lines 59–60). -/
def calc_second_derivative (q : Quintic) (t : ℝ) : ℝ :=
  2 * q.a2 + 6 * q.a3 * t + 12 * q.a4 * t ^ 2 + 20 * q.a5 * t ^ 3

/-- `bezier_interp` of `keshihua.py` (lines 66–81): cubic Bezier between
poses p0 and p3 with control points auto-derived a third of the endpoint
distance along each boundary tangent; returns (x, y, heading). -/
def bezier_interp (p0 p3 : ℝ × ℝ × ℝ) (t : ℝ) : ℝ × ℝ × ℝ :=
  let dist := Real.sqrt ((p3.1 - p0.1) ^ 2 + (p3.2.1 - p0.2.1) ^ 2) / 3
  let p1 : ℝ × ℝ := (p0.1 + dist * Real.cos p0.2.2, p0.2.1 + dist * Real.sin p0.2.2)
  let p2 : ℝ × ℝ := (p3.1 - dist * Real.cos p3.2.2, p3.2.1 - dist * Real.sin p3.2.2)
  let it := 1 - t
  let x := it ^ 3 * p0.1 + 3 * it ^ 2 * t * p1.1 + 3 * it * t ^ 2 * p2.1 + t ^ 3 * p3.1
  let y := it ^ 3 * p0.2.1 + 3 * it ^ 2 * t * p1.2 + 3 * it * t ^ 2 * p2.2 + t ^ 3 * p3.2.1
  let dx := 3 * it ^ 2 * (p1.1 - p0.1) + 6 * it * t * (p2.1 - p1.1) + 3 * t ^ 2 * (p3.1 - p2.1)
  let dy := 3 * it ^ 2 * (p1.2 - p0.2.1) + 6 * it * t * (p2.2 - p1.2) + 3 * t ^ 2 * (p3.2.1 - p2.2)
  (x, y, atan2 dy dx)

/-- `VUT_SPEED_KMH / 3.6` of `keshihua.py` (lines 8 and 96). -/
def keshihuaSpeed : ℝ := 30 / 3.6

/-- `DT` of `keshihua.py` (line 9). -/
def keshihuaDT : ℝ := 0.1

/-- `gap_dist` of `keshihua.py` (line 154): Euclidean distance between the
current road's end pose and the next road's start pose. -/
def gap_dist (pA pB : ℝ × ℝ × ℝ) : ℝ :=
  Real.sqrt ((pA.1 - pB.1) ^ 2 + (pA.2.1 - pB.2.1) ^ 2)

/-- The gap-filling step of `keshihua.py` (lines 144–167) at one junction:
when the gap exceeds 0.1 it appends `int((gap_dist/speed)/DT)` Bezier
samples at ratios g_step/(gap_steps+1), each at the running clock advanced
by DT per sample; otherwise it appends nothing. -/
def bridgePoints (pA pB : ℝ × ℝ × ℝ) (t0 : ℝ) : List Sample :=
  if 0.1 < gap_dist pA pB then
    let gapSteps := (⌊gap_dist pA pB / keshihuaSpeed / keshihuaDT⌋).toNat
    (List.range gapSteps).map fun (g : ℕ) =>
      let r := ((g : ℝ) + 1) / ((gapSteps : ℝ) + 1)
      let b := bezier_interp pA pB r
      ⟨t0 + (g : ℝ) * keshihuaDT, b.1, b.2.1, b.2.2⟩
  else []

/-- `target_points` of `keshihua.py` (lines 169–191): one sample per VUT
sample, copying its timestamp and pinning the manually specified pose
(−358.68, 81.02) with heading `math.radians(45.0)`. -/
def target_points (vut : List Sample) : List Sample :=
  vut.map fun p => ⟨p.t, -358.68, 81.02, 45 * (Real.pi / 180)⟩

/-- The Target records written by `VUTstraight_round.py` (lines 126–131):
one vertex per VUT sample carrying the VUT timestamp and the constant
pose (−358.68, 81.02, 0.87). -/
def vutstraight_target_records (vut : List Sample) : List Sample :=
  vut.map fun p => ⟨p.t, -358.68, 81.02, 0.87⟩

/-- One vertex block as written by `write_trajectory_file` of `track.py`
(lines 112–118), given already-formatted numeric fields: the Position
element spans its own indented lines and the WorldPosition carries the
extra attributes p="0" r="0". -/
def track_vertex (t x y h : String) : String :=
  "<Vertex time=\"" ++ t ++ "\">\n" ++
  "    <Position>\n" ++
  "        <WorldPosition x=\"" ++ x ++ "\" y=\"" ++ y ++ "\" z=\"0\" h=\"" ++
  h ++ "\" p=\"0\" r=\"0\"/>\n" ++
  "    </Position>\n" ++
  "</Vertex>\n"

/-- One vertex block as written by `save_f` of `keshihua.py`
(lines 194–199). -/
def keshihua_vertex (t x y h : String) : String :=
  "<Vertex time=\"" ++ t ++ "\">\n" ++
  "    <Position><WorldPosition x=\"" ++ x ++ "\" y=\"" ++ y ++
  "\" z=\"0\" h=\"" ++ h ++ "\"/></Position>\n" ++
  "</Vertex>\n"

/-- One vertex block as written by the VUT writer of
`VUTstraight_round.py` (lines 119–123). -/
def vutstraight_vertex (t x y h : String) : String :=
  "<Vertex time=\"" ++ t ++ "\">\n" ++
  "    <Position><WorldPosition x=\"" ++ x ++ "\" y=\"" ++ y ++
  "\" z=\"0\" h=\"" ++ h ++ "\"/></Position>\n" ++
  "</Vertex>\n"

/-- One vertex block as built by `calculate_trajectory_points` of
`VT1accTrajectory.py` (lines 205–207): same shape but without a trailing
newline (the blocks are later joined with a newline). -/
def vt1acc_vertex (t x y h : String) : String :=
  "<Vertex time=\"" ++ t ++ "\">\n" ++
  "    <Position><WorldPosition x=\"" ++ x ++ "\" y=\"" ++ y ++
  "\" z=\"0\" h=\"" ++ h ++ "\"/></Position>\n" ++
  "</Vertex>"

/-- The decimal places each serializer requests in its f-string format
specifiers for time, x, y and h. -/
structure VertexNumFormat where
  timeDecimals : Nat
  xDecimals : Nat
  yDecimals : Nat
  hDecimals : Nat
deriving DecidableEq

/-- `track.py` formats all four fields with `:.6f` (lines 112 and 116). -/
def track_format : VertexNumFormat := ⟨6, 6, 6, 6⟩

/-- `keshihua.py` formats all four fields with `:.4f` (lines 197–198). -/
def keshihua_format : VertexNumFormat := ⟨4, 4, 4, 4⟩

/-- The VUT writer of `VUTstraight_round.py` formats all four fields with
`:.4f` (lines 121–122). -/
def vutstraight_vut_format : VertexNumFormat := ⟨4, 4, 4, 4⟩

/-- `VT1accTrajectory.py` formats all four fields with `:.4f`
(lines 205–206). -/
def vt1acc_format : VertexNumFormat := ⟨4, 4, 4, 4⟩

/-- One geometry record of `roads_db` in `track.py` (lines 16–34):
(s_start, x, y, hdg, length, curvature). -/
structure Geometry where
  sStart : ℝ
  x : ℝ
  y : ℝ
  hdg : ℝ
  length : ℝ
  k : ℝ

/-- The number of samples `generate_continuous_path` emits on one
geometry segment (`track.py` lines 83–84): `int((length/speed)/dt)`. -/
def segSteps (len speed dt : ℝ) : ℕ := (⌊len / speed / dt⌋).toNat

/-- The samples `generate_continuous_path` emits on one geometry segment
(`track.py` lines 86–98), the clock entering the segment at t0 and each
sample advancing it by dt. -/
def segSamples (g : Geometry) (speed dt t0 : ℝ) : List Sample :=
  (List.range (segSteps g.length speed dt)).map fun (i : ℕ) =>
    let ds := speed * ((i : ℝ) * dt)
    let p := calc_point_on_arc g.x g.y g.hdg ds g.k
    ⟨t0 + (i : ℝ) * dt, p.1, p.2.1, p.2.2⟩

/-- The segment loop of `generate_continuous_path` (`track.py`
lines 75–99) over the flattened list of geometry segments, threading the
running `current_time`. -/
def genPath (speed dt : ℝ) : List Geometry → ℝ → List Sample
  | [], _ => []
  | g :: gs, t0 =>
      segSamples g speed dt t0 ++
        genPath speed dt gs (t0 + (segSteps g.length speed dt : ℝ) * dt)

/-- `generate_continuous_path` of `track.py` (lines 70–100): iterates the
road sequence's segments in order with the clock starting at 0. -/
def generate_continuous_path (roadSeq : List (List Geometry)) (speed dt : ℝ) :
    List Sample :=
  genPath speed dt roadSeq.flatten 0

/-- The total number of samples over a list of geometry segments. -/
def totalSteps (speed dt : ℝ) (gs : List Geometry) : ℕ :=
  (gs.map fun g => segSteps g.length speed dt).sum

/-- Road 96 of `roads_db` (`track.py` line 17–19). -/
def road96 : List Geometry := [⟨0, -360.844, 119.543, 2.247, 9.024, 0.00377⟩]

/-- Road 197 of `roads_db` (`track.py` lines 20–23). -/
def road197 : List Geometry :=
  [⟨0, -363.009, 117.806, 5.389, 8.081, -0.03867⟩,
   ⟨8.081, -359.009, 110.822, -1.207, 7.114, -0.08187⟩]

/-- Road 100 of `roads_db` (`track.py` lines 24–26). -/
def road100 : List Geometry := [⟨0, -355.037, 103.058, -1.789, 4.383, 0.07879⟩]

/-- Road 101 of `roads_db` (`track.py` lines 27–29). -/
def road101 : List Geometry := [⟨0, -354.755, 98.763, -1.444, 11.189, 0.10580⟩]

/-- `vut_path_ids = ['96', '197', '100', '101']` (`track.py` line 126)
resolved against `roads_db`. -/
def vut_path : List (List Geometry) := [road96, road197, road100, road101]

/-- `DT` of `generate_VT1.py` (line 30). -/
def genVT1DT : ℝ := 0.1

/-- Times of a `plan_trajectory` stage that advances the clock by DT
before emitting each of n samples (the circle, clothoid and snap loops
of `generate_VT1.py`, lines 156–160, 170–172, 203–210, and the final
straight loop of lines 213–215 with n = 19). -/
def stageTimes (t0 : ℝ) (n : ℕ) : List ℝ :=
  (List.range n).map fun (i : ℕ) => t0 + ((i : ℝ) + 1) * genVT1DT

/-- The timestamps emitted by `plan_trajectory` of `generate_VT1.py`
(lines 90–217), as a function of the sample counts of its stages — the
entry-quintic step count (`int(best_T/DT)`, line 126), the circle steps
(line 154), the clothoid interior point count (line 166–170) and the
snap steps (line 202), each determined by the script's numeric search
and geometry. Stage 1 (lines 127–132) emits times i·DT for i = 0..steps
and advances the clock to steps·DT; every following stage emits times
advancing by exactly DT from the running clock; the final straight
(lines 213–215) adds 19 more. -/
def planTimes (steps circleSteps clothoidSteps snapSteps : ℕ) : List ℝ :=
  ((List.range (steps + 1)).map fun (i : ℕ) => (i : ℝ) * genVT1DT) ++
  stageTimes ((steps : ℝ) * genVT1DT) circleSteps ++
  stageTimes ((steps : ℝ) * genVT1DT + (circleSteps : ℝ) * genVT1DT) clothoidSteps ++
  stageTimes ((steps : ℝ) * genVT1DT + (circleSteps : ℝ) * genVT1DT +
    (clothoidSteps : ℝ) * genVT1DT) snapSteps ++
  stageTimes ((steps : ℝ) * genVT1DT + (circleSteps : ℝ) * genVT1DT +
    (clothoidSteps : ℝ) * genVT1DT + (snapSteps : ℝ) * genVT1DT) 19

/-- `START_X` of `VUTstraight_round.py` (line 9). -/
def vutsSTART_X : ℝ := -372

/-- `START_Y` of `VUTstraight_round.py` (line 10). -/
def vutsSTART_Y : ℝ := 131

/-- `START_H` of `VUTstraight_round.py` (line 12). -/
def vutsSTART_H : ℝ := -0.8606

/-- `VUT_SPEED_KMH / 3.6` of `VUTstraight_round.py` (lines 14 and 39). -/
def vutsSpeed : ℝ := 30 / 3.6

/-- `DT` of `VUTstraight_round.py` (line 15). -/
def vutsDT : ℝ := 0.1

/-- `CENTER_X` of `VUTstraight_round.py` (line 18). -/
def vutsCENTER_X : ℝ := -345.18

/-- `CENTER_Y` of `VUTstraight_round.py` (line 19). -/
def vutsCENTER_Y : ℝ := 100.73

/-- `RADIUS` of `VUTstraight_round.py` (line 20). -/
def vutsRADIUS : ℝ := 13

/-- `best_straight_len` of `VUTstraight_round.py` (line 44). -/
def vutsStraightLen : ℝ := 5

/-- `entry_angle_rad` of `VUTstraight_round.py` (line 45). -/
def vutsEntryAngle : ℝ := 3.42

/-- `get_circle_pt` of `VUTstraight_round.py` (lines 30–34). -/
def get_circle_pt (angle : ℝ) : ℝ × ℝ × ℝ :=
  (vutsCENTER_X + vutsRADIUS * Real.cos angle,
   vutsCENTER_Y + vutsRADIUS * Real.sin angle,
   normalize_angle (angle + Real.pi / 2))

/-- `steps_straight` (`VUTstraight_round.py` line 47):
`int(best_straight_len / (speed_mps * DT))`. -/
def vutsStepsStraight : ℕ := (⌊vutsStraightLen / (vutsSpeed * vutsDT)⌋).toNat

/-- The straight-segment samples (`VUTstraight_round.py` lines 51–57):
i = 0..steps_straight at times i·DT along the start heading. -/
def vutsStraightSamples : List Sample :=
  (List.range (vutsStepsStraight + 1)).map fun (i : ℕ) =>
    let dist := (i : ℝ) * vutsDT * vutsSpeed
    ⟨(i : ℝ) * vutsDT, vutsSTART_X + dist * Real.cos vutsSTART_H,
      vutsSTART_Y + dist * Real.sin vutsSTART_H, vutsSTART_H⟩

/-- `p_end_straight` (`VUTstraight_round.py` line 57): the pose of the
last straight sample. -/
def vutsPEnd : ℝ × ℝ × ℝ :=
  (vutsSTART_X + (vutsStepsStraight : ℝ) * vutsDT * vutsSpeed * Real.cos vutsSTART_H,
   vutsSTART_Y + (vutsStepsStraight : ℝ) * vutsDT * vutsSpeed * Real.sin vutsSTART_H,
   vutsSTART_H)

/-- The entry point on the circle (`VUTstraight_round.py` line 60). -/
def vutsEntry : ℝ × ℝ × ℝ := get_circle_pt vutsEntryAngle

/-- Bezier endpoint `p0` (`VUTstraight_round.py` line 62). -/
def vutsP0 : ℝ × ℝ := (vutsPEnd.1, vutsPEnd.2.1)

/-- Bezier endpoint `p3` (`VUTstraight_round.py` line 63). -/
def vutsP3 : ℝ × ℝ := (vutsEntry.1, vutsEntry.2.1)

/-- `ctrl_len = dist_connect * 0.5` (`VUTstraight_round.py`
lines 65–67). -/
def vutsCtrlLen : ℝ :=
  Real.sqrt ((vutsP3.1 - vutsP0.1) ^ 2 + (vutsP3.2 - vutsP0.2) ^ 2) * 0.5

/-- Bezier control point `p1` (`VUTstraight_round.py` lines 69–70). -/
def vutsP1 : ℝ × ℝ :=
  (vutsP0.1 + vutsCtrlLen * Real.cos vutsPEnd.2.2,
   vutsP0.2 + vutsCtrlLen * Real.sin vutsPEnd.2.2)

/-- Bezier control point `p2` (`VUTstraight_round.py` lines 71–72). -/
def vutsP2 : ℝ × ℝ :=
  (vutsP3.1 - vutsCtrlLen * Real.cos vutsEntry.2.2,
   vutsP3.2 - vutsCtrlLen * Real.sin vutsEntry.2.2)

/-- The Bezier transition position at parameter i/25 (`VUTstraight_round.py`
lines 74–82, `curve_steps = 25`); index 0 gives p0, the straight
segment's endpoint. -/
def vutsBezPos (i : ℕ) : ℝ × ℝ :=
  let tv := (i : ℝ) / 25
  let mt := 1 - tv
  (mt ^ 3 * vutsP0.1 + 3 * mt ^ 2 * tv * vutsP1.1 + 3 * mt * tv ^ 2 * vutsP2.1 +
     tv ^ 3 * vutsP3.1,
   mt ^ 3 * vutsP0.2 + 3 * mt ^ 2 * tv * vutsP1.2 + 3 * mt * tv ^ 2 * vutsP2.2 +
     tv ^ 3 * vutsP3.2)

/-- The Bezier transition heading at parameter i/25 (`VUTstraight_round.py`
lines 84–86). -/
def vutsBezHeading (i : ℕ) : ℝ :=
  let tv := (i : ℝ) / 25
  let mt := 1 - tv
  atan2
    (3 * mt ^ 2 * (vutsP1.2 - vutsP0.2) + 6 * mt * tv * (vutsP2.2 - vutsP1.2) +
      3 * tv ^ 2 * (vutsP3.2 - vutsP2.2))
    (3 * mt ^ 2 * (vutsP1.1 - vutsP0.1) + 6 * mt * tv * (vutsP2.1 - vutsP1.1) +
      3 * tv ^ 2 * (vutsP3.1 - vutsP2.1))

/-- The running clock through the Bezier loop (`VUTstraight_round.py`
lines 77–92): index i is the clock after the i-th Bezier sample; index 0
is the clock entering the loop, (steps_straight+1)·DT. Each step
advances the clock by the chord distance from the previously emitted
point (whose position is the Bezier position at the previous index)
divided by the speed, before the sample is appended. -/
def vutsBezTime : ℕ → ℝ
  | 0 => ((vutsStepsStraight : ℝ) + 1) * vutsDT
  | i + 1 =>
      vutsBezTime i +
        Real.sqrt (((vutsBezPos (i + 1)).1 - (vutsBezPos i).1) ^ 2 +
          ((vutsBezPos (i + 1)).2 - (vutsBezPos i).2) ^ 2) / vutsSpeed

/-- The Bezier transition samples (`VUTstraight_round.py` lines 77–92):
the loop body for i = 1..25. -/
def vutsBezSamples : List Sample :=
  (List.range 25).map fun (i : ℕ) =>
    ⟨vutsBezTime (i + 1), (vutsBezPos (i + 1)).1, (vutsBezPos (i + 1)).2,
      vutsBezHeading (i + 1)⟩

/-- `end_ang` (`VUTstraight_round.py` lines 96–98): 3π/2 + 0.1, bumped by
2π if below the entry angle. -/
def vutsEndAng : ℝ :=
  if 3 * Real.pi / 2 + 0.1 < vutsEntryAngle then 3 * Real.pi / 2 + 0.1 + 2 * Real.pi
  else 3 * Real.pi / 2 + 0.1

/-- `arc_len` (`VUTstraight_round.py` line 100). -/
def vutsArcLen : ℝ := (vutsEndAng - vutsEntryAngle) * vutsRADIUS

/-- `circle_steps` (`VUTstraight_round.py` line 101):
`int(arc_len / (speed_mps * DT))`. -/
def vutsCircleSteps : ℕ := (⌊vutsArcLen / (vutsSpeed * vutsDT)⌋).toNat

/-- The circle samples (`VUTstraight_round.py` lines 105–110): the loop
body for i = 1..circle_steps appends the sample at the running clock
BEFORE advancing it, so the first circle sample carries the same
timestamp as the last Bezier sample. -/
def vutsCircleSamples : List Sample :=
  (List.range vutsCircleSteps).map fun (i : ℕ) =>
    let frac := ((i : ℝ) + 1) / (vutsCircleSteps : ℝ)
    let ang := vutsEntryAngle + frac * (vutsEndAng - vutsEntryAngle)
    let p := get_circle_pt ang
    ⟨vutsBezTime 25 + (i : ℝ) * vutsDT, p.1, p.2.1, p.2.2⟩

/-- `generate_trajectory` of `VUTstraight_round.py` (lines 36–112): the
straight run, the Bezier transition and the circular run, in order. -/
def generate_trajectory : List Sample :=
  vutsStraightSamples ++ vutsBezSamples ++ vutsCircleSamples

end

/-- On the acceleration branch the guarded time agrees with √(2d/a)
also at d = 0, since √0 = 0. -/
theorem kinTime_acc (V a d : ℝ) (hd : 0 ≤ d) (hle : d ≤ V ^ 2 / (2 * a)) :
    kinTime V a d = Real.sqrt (2 * d / a) := by
  rw [kinTime, if_pos hle]
  rcases eq_or_lt_of_le hd with h0 | h0
  · rw [if_neg (by rw [← h0]; exact lt_irrefl 0), ← h0]
    norm_num
  · rw [if_pos h0]

/-- On the cruise branch the time is V/a + (d − V²/(2a))/V. -/
theorem kinTime_cruise (V a d : ℝ) (hlt : V ^ 2 / (2 * a) < d) :
    kinTime V a d = V / a + (d - V ^ 2 / (2 * a)) / V := by
  rw [kinTime, if_neg (not_le.2 hlt)]

/-- On the acceleration branch the velocity is a·√(2d/a). -/
theorem kinVel_acc (V a d : ℝ) (hd : 0 ≤ d) (hle : d ≤ V ^ 2 / (2 * a)) :
    kinVel V a d = a * Real.sqrt (2 * d / a) := by
  rw [kinVel, if_pos hle, kinTime_acc V a d hd hle]

/-- On the cruise branch the velocity is V. -/
theorem kinVel_cruise (V a d : ℝ) (hlt : V ^ 2 / (2 * a) < d) :
    kinVel V a d = V := by
  rw [kinVel, if_neg (not_le.2 hlt)]

/-- For positive V and a, √(2d/a) is at most V/a throughout the
acceleration branch. -/
theorem sqrt_le_accel_duration (V a d : ℝ) (hV : 0 < V) (ha : 0 < a)
    (hle : d ≤ V ^ 2 / (2 * a)) :
    Real.sqrt (2 * d / a) ≤ V / a := by
  have hle' : d * (2 * a) ≤ V ^ 2 := (le_div_iff₀ (by positivity)).1 hle
  have harg : 2 * d / a ≤ (V / a) ^ 2 := by
    rw [div_pow, div_le_div_iff₀ (by positivity) (by positivity)]
    nlinarith
  calc Real.sqrt (2 * d / a) ≤ Real.sqrt ((V / a) ^ 2) := Real.sqrt_le_sqrt harg
    _ = V / a := Real.sqrt_sq (by positivity)

/-- A mapped range is a chain for r whenever consecutive images are
r-related. -/
theorem chain_range_map {r : ℝ → ℝ → Prop} (N : ℕ) (f : ℕ → ℝ)
    (hf : ∀ i, r (f i) (f (i + 1))) : List.Chain' r ((List.range N).map f) := by
  rw [List.chain'_map]
  cases N with
  | zero => simp
  | succ m =>
      rw [List.chain'_range_succ]
      exact fun i _ => hf i

/-- Splitting a mapped range at an index. -/
theorem range_map_append_chunk (a b : ℕ) (f : ℕ → ℝ) :
    (List.range (a + b)).map f =
      (List.range a).map f ++ (List.range b).map fun j => f (a + j) := by
  rw [List.range_add, List.map_append, List.map_map]
  rfl

/-- The timestamps `genPath` emits are the consecutive multiples of dt
offset by the incoming clock. -/
theorem genPath_times (speed dt : ℝ) :
    ∀ (gs : List Geometry) (t0 : ℝ),
      (genPath speed dt gs t0).map Sample.t =
        (List.range (totalSteps speed dt gs)).map fun (j : ℕ) => t0 + (j : ℝ) * dt
  | [], t0 => by simp [genPath, totalSteps]
  | g :: gs, t0 => by
      rw [genPath, List.map_append, genPath_times speed dt gs]
      have h1 : (segSamples g speed dt t0).map Sample.t =
          (List.range (segSteps g.length speed dt)).map
            fun (j : ℕ) => t0 + (j : ℝ) * dt := by
        rw [segSamples, List.map_map]
        rfl
      have h2 : totalSteps speed dt (g :: gs) =
          segSteps g.length speed dt + totalSteps speed dt gs := by
        simp [totalSteps]
      rw [h1, h2, range_map_append_chunk]
      congr 1
      refine List.map_congr_left fun j hj => ?_
      push_cast
      ring

/-- The timestamps of `plan_trajectory` are exactly the consecutive
multiples of DT: every stage continues the clock where the previous one
left it. -/
theorem planTimes_eq (s c k n : ℕ) :
    planTimes s c k n =
      (List.range (s + 1 + c + k + n + 19)).map fun (j : ℕ) => (j : ℝ) * genVT1DT := by
  have hB : stageTimes ((s : ℝ) * genVT1DT) c
      = (List.range c).map fun (j : ℕ) => ((s + 1 + j : ℕ) : ℝ) * genVT1DT := by
    rw [stageTimes]
    refine List.map_congr_left fun j hj => ?_
    push_cast
    ring
  have hC : stageTimes ((s : ℝ) * genVT1DT + (c : ℝ) * genVT1DT) k
      = (List.range k).map fun (j : ℕ) => ((s + 1 + c + j : ℕ) : ℝ) * genVT1DT := by
    rw [stageTimes]
    refine List.map_congr_left fun j hj => ?_
    push_cast
    ring
  have hD : stageTimes ((s : ℝ) * genVT1DT + (c : ℝ) * genVT1DT +
        (k : ℝ) * genVT1DT) n
      = (List.range n).map fun (j : ℕ) => ((s + 1 + c + k + j : ℕ) : ℝ) * genVT1DT := by
    rw [stageTimes]
    refine List.map_congr_left fun j hj => ?_
    push_cast
    ring
  have hE : stageTimes ((s : ℝ) * genVT1DT + (c : ℝ) * genVT1DT +
        (k : ℝ) * genVT1DT + (n : ℝ) * genVT1DT) 19
      = (List.range 19).map
          fun (j : ℕ) => ((s + 1 + c + k + n + j : ℕ) : ℝ) * genVT1DT := by
    rw [stageTimes]
    refine List.map_congr_left fun j hj => ?_
    push_cast
    ring
  rw [planTimes, hB, hC, hD, hE, range_map_append_chunk (s + 1 + c + k + n) 19,
    range_map_append_chunk (s + 1 + c + k) n, range_map_append_chunk (s + 1 + c) k,
    range_map_append_chunk (s + 1) c]

/-- The straight-segment timestamps of `generate_trajectory`. -/
theorem vutsStraight_times :
    vutsStraightSamples.map Sample.t =
      (List.range (vutsStepsStraight + 1)).map fun (i : ℕ) => (i : ℝ) * vutsDT := by
  rw [vutsStraightSamples, List.map_map]
  rfl

/-- The Bezier-segment timestamps of `generate_trajectory`. -/
theorem vutsBez_times :
    vutsBezSamples.map Sample.t =
      (List.range 25).map fun (i : ℕ) => vutsBezTime (i + 1) := by
  rw [vutsBezSamples, List.map_map]
  rfl

/-- The circle-segment timestamps of `generate_trajectory`. -/
theorem vutsCircle_times :
    vutsCircleSamples.map Sample.t =
      (List.range vutsCircleSteps).map
        fun (i : ℕ) => vutsBezTime 25 + (i : ℝ) * vutsDT := by
  rw [vutsCircleSamples, List.map_map]
  rfl

/-- The Bezier clock never decreases: each step adds a chord length over
the (positive) speed. -/
theorem vutsBezTime_mono (i : ℕ) : vutsBezTime i ≤ vutsBezTime (i + 1) :=
  le_add_of_nonneg_right
    (div_nonneg (Real.sqrt_nonneg _) (by rw [vutsSpeed]; norm_num))

/-- The circular stage of `generate_trajectory` emits at least one
sample: the arc from the entry angle 3.42 to 3π/2 + 0.1 spans more than
one DT of travel. -/
theorem vutsCircleSteps_pos : 1 ≤ vutsCircleSteps := by
  have hend : vutsEndAng = 3 * Real.pi / 2 + 0.1 := by
    rw [vutsEndAng, if_neg]
    rw [vutsEntryAngle, not_lt]
    linarith [Real.pi_gt_three]
  have harc1 : (1 : ℝ) ≤ vutsArcLen / (vutsSpeed * vutsDT) := by
    rw [vutsArcLen, hend, vutsEntryAngle, vutsSpeed, vutsDT, vutsRADIUS,
      le_div_iff₀ (by norm_num)]
    nlinarith [Real.pi_gt_three]
  have hfl : (1 : ℤ) ≤ ⌊vutsArcLen / (vutsSpeed * vutsDT)⌋ :=
    Int.le_floor.2 (by exact_mod_cast harc1)
  rw [vutsCircleSteps]
  omega

/-- The last Bezier sample and the first circle sample of
`generate_trajectory` carry the same timestamp. -/
theorem vuts_junction_times :
    ((vutsStraightSamples ++ vutsBezSamples).map Sample.t).getLast? =
        some (vutsBezTime 25) ∧
      (vutsCircleSamples.map Sample.t).head? = some (vutsBezTime 25) := by
  constructor
  · rw [List.map_append, List.getLast?_append, vutsBez_times]
    rw [show (25 : ℕ) = 24 + 1 from rfl, List.range_succ, List.map_append,
      List.getLast?_append, List.map_singleton, List.getLast?_singleton]
    rfl
  · obtain ⟨m, hm⟩ : ∃ m, vutsCircleSteps = m + 1 :=
      ⟨vutsCircleSteps - 1, by have := vutsCircleSteps_pos; omega⟩
    rw [vutsCircle_times, hm, List.range_succ_eq_map, List.map_cons, List.head?_cons]
    norm_num

/-- Or-ing an Option onto a `some` keeps the `some`. -/
theorem option_some_or {α : Type} (a : α) (o : Option α) : (some a).or o = some a := rfl

/-- C3: both arc samplers return the closed-form constant-curvature arc
pose when |k| is at least the implementation's epsilon (1e-6 for
`calc_point_on_arc`, 1e-9 for `calc_coords`), and the straight-line pose
when |k| is below it. -/
theorem arc_sampler_branches (x0 y0 h0 s k len : ℝ)
    (hs0 : 0 ≤ s) (hsl : s ≤ len) :
    ((1 / 1000000 ≤ |k| →
        calc_point_on_arc x0 y0 h0 s k =
          (x0 + (Real.sin (h0 + k * s) - Real.sin h0) / k,
           y0 + (Real.cos h0 - Real.cos (h0 + k * s)) / k,
           h0 + k * s)) ∧
      (|k| < 1 / 1000000 →
        calc_point_on_arc x0 y0 h0 s k =
          (x0 + s * Real.cos h0, y0 + s * Real.sin h0, h0))) ∧
    ((1 / 1000000000 ≤ |k| →
        calc_coords x0 y0 h0 s k =
          (x0 + (Real.sin (h0 + k * s) - Real.sin h0) / k,
           y0 + (Real.cos h0 - Real.cos (h0 + k * s)) / k,
           h0 + k * s)) ∧
      (|k| < 1 / 1000000000 →
        calc_coords x0 y0 h0 s k =
          (x0 + s * Real.cos h0, y0 + s * Real.sin h0, h0))) := by
  refine ⟨⟨fun hk => ?_, fun hk => ?_⟩, ⟨fun hk => ?_, fun hk => ?_⟩⟩
  · rw [calc_point_on_arc, if_neg (not_lt.2 hk)]
    simp [mul_comm s k]
  · rw [calc_point_on_arc, if_pos hk]
  · rw [calc_coords, if_neg (not_lt.2 hk)]
    simp [mul_comm s k]
  · rw [calc_coords, if_pos hk]

/-- Witness for C3: at k = 1 (at least both epsilons) with s = 1, len = 2,
the samplers take the arc branch. -/
theorem arc_sampler_branches_witness :
    (0 : ℝ) ≤ 1 ∧ (1 : ℝ) ≤ 2 ∧
      calc_point_on_arc 0 0 0 1 1 =
        (0 + (Real.sin (0 + 1 * 1) - Real.sin 0) / 1,
         0 + (Real.cos 0 - Real.cos (0 + 1 * 1)) / 1, 0 + 1 * 1) :=
  ⟨by norm_num, by norm_num,
    ((arc_sampler_branches 0 0 0 1 1 2 (by norm_num) (by norm_num)).1.1
      (by rw [abs_one]; norm_num))⟩

/-- C1: for the constant-acceleration profile of
`calculate_trajectory_points` (a = 1.5, V = 15/3.6), every distance
d ≥ 0 at most the acceleration distance V²/(2a) yields time √(2d/a) and
velocity a·√(2d/a); beyond it the time is V/a + (d − V²/(2a))/V and the
velocity is V; and d = 0 yields time 0 and velocity 0 exactly. -/
theorem vt1_kinematic_profile (d : ℝ) (hd : 0 ≤ d) :
    (d ≤ (15 / 3.6) ^ 2 / (2 * 1.5) →
        kinTime (15 / 3.6) 1.5 d = Real.sqrt (2 * d / 1.5) ∧
        kinVel (15 / 3.6) 1.5 d = 1.5 * Real.sqrt (2 * d / 1.5)) ∧
    ((15 / 3.6) ^ 2 / (2 * 1.5) < d →
        kinTime (15 / 3.6) 1.5 d =
            (15 / 3.6) / 1.5 + (d - (15 / 3.6) ^ 2 / (2 * 1.5)) / (15 / 3.6) ∧
        kinVel (15 / 3.6) 1.5 d = 15 / 3.6) ∧
    (kinTime (15 / 3.6) 1.5 0 = 0 ∧ kinVel (15 / 3.6) 1.5 0 = 0) := by
  refine ⟨fun h => ⟨kinTime_acc _ _ _ hd h, kinVel_acc _ _ _ hd h⟩,
    fun h => ⟨kinTime_cruise _ _ _ h, kinVel_cruise _ _ _ h⟩, ?_, ?_⟩
  · rw [kinTime_acc (15 / 3.6) 1.5 0 le_rfl (by norm_num)]
    norm_num
  · rw [kinVel_acc (15 / 3.6) 1.5 0 le_rfl (by norm_num)]
    norm_num

/-- Witness for C1 at d = 0. -/
theorem vt1_kinematic_profile_witness :
    (0 : ℝ) ≤ 0 ∧ (kinTime (15 / 3.6) 1.5 0 = 0 ∧ kinVel (15 / 3.6) 1.5 0 = 0) :=
  ⟨le_rfl, (vt1_kinematic_profile 0 le_rfl).2.2⟩

/-- C7: for all V > 0 and a > 0, the kinematic map is monotonically
non-decreasing in time and in velocity as the distance grows, and at
d = V²/(2a) the velocity equals V exactly. -/
theorem kinematic_profile_monotone (V a : ℝ) (hV : 0 < V) (ha : 0 < a) :
    (∀ d1 d2, 0 ≤ d1 → d1 ≤ d2 →
        kinTime V a d1 ≤ kinTime V a d2 ∧ kinVel V a d1 ≤ kinVel V a d2) ∧
    kinVel V a (V ^ 2 / (2 * a)) = V := by
  constructor
  · intro d1 d2 h1 h12
    by_cases h2 : d2 ≤ V ^ 2 / (2 * a)
    · have h1D : d1 ≤ V ^ 2 / (2 * a) := le_trans h12 h2
      rw [kinTime_acc V a d1 h1 h1D, kinTime_acc V a d2 (h1.trans h12) h2,
        kinVel_acc V a d1 h1 h1D, kinVel_acc V a d2 (h1.trans h12) h2]
      have harg : 2 * d1 / a ≤ 2 * d2 / a := by gcongr
      exact ⟨Real.sqrt_le_sqrt harg,
        mul_le_mul_of_nonneg_left (Real.sqrt_le_sqrt harg) ha.le⟩
    · push_neg at h2
      by_cases h1D : d1 ≤ V ^ 2 / (2 * a)
      · rw [kinTime_acc V a d1 h1 h1D, kinTime_cruise V a d2 h2,
          kinVel_acc V a d1 h1 h1D, kinVel_cruise V a d2 h2]
        have hs := sqrt_le_accel_duration V a d1 hV ha h1D
        have hrest : 0 ≤ (d2 - V ^ 2 / (2 * a)) / V :=
          div_nonneg (sub_nonneg.2 h2.le) hV.le
        refine ⟨le_trans hs (le_add_of_nonneg_right hrest), ?_⟩
        calc a * Real.sqrt (2 * d1 / a) ≤ a * (V / a) :=
              mul_le_mul_of_nonneg_left hs ha.le
          _ = V := by field_simp
      · push_neg at h1D
        rw [kinTime_cruise V a d1 h1D, kinTime_cruise V a d2 (h1D.trans_le h12),
          kinVel_cruise V a d1 h1D, kinVel_cruise V a d2 (h1D.trans_le h12)]
        refine ⟨?_, le_rfl⟩
        gcongr
  · have hD0 : 0 ≤ V ^ 2 / (2 * a) := by positivity
    rw [kinVel_acc V a _ hD0 le_rfl]
    have harg : 2 * (V ^ 2 / (2 * a)) / a = (V / a) ^ 2 := by
      field_simp
      ring
    rw [harg, Real.sqrt_sq (by positivity)]
    field_simp

/-- Witness for C7 at V = 1, a = 1. -/
theorem kinematic_profile_monotone_witness :
    (0 : ℝ) < 1 ∧ kinVel 1 1 (1 ^ 2 / (2 * 1)) = 1 :=
  ⟨by norm_num, (kinematic_profile_monotone 1 1 (by norm_num) (by norm_num)).2⟩

/-- Counterexample for C9: at a = −1.5 ≤ 0 and d = 1 > 0 the kinematic
computation does not fail — the acceleration distance is negative, so the
cruise branch runs and returns the numeric pair (−517/450, 15/3.6). -/
theorem kin_no_domain_error_counterexample :
    (-1.5 : ℝ) ≤ 0 ∧ (0 : ℝ) < 1 ∧
      kinProfileE (15 / 3.6) (-1.5) 1 = Except.ok (-517 / 450, 15 / 3.6) := by
  refine ⟨by norm_num, by norm_num, ?_⟩
  rw [kinProfileE, if_neg (by norm_num), if_neg (by norm_num), if_neg (by norm_num)]
  norm_num [Prod.ext_iff]

/-- C9 amended: the code performs no domain check. For a < 0 and d > 0
(and V ≠ 0) it silently returns the cruise-branch numbers
(V/a + (d − V²/(2a))/V, V); the only failure for non-positive a is the
upfront division by zero at a = 0, a bare ZeroDivisionError rather than
a descriptive domain error. -/
theorem kin_negative_acc_returns_cruise (V a d : ℝ) (ha : a < 0) (hd : 0 < d)
    (hV : V ≠ 0) :
    kinProfileE V a d = Except.ok (V / a + (d - V ^ 2 / (2 * a)) / V, V) ∧
    ∀ e : ℝ, kinProfileE V 0 e = Except.error PyErr.zeroDivision := by
  constructor
  · have hD : V ^ 2 / (2 * a) ≤ 0 :=
      div_nonpos_of_nonneg_of_nonpos (sq_nonneg V) (by linarith)
    rw [kinProfileE, if_neg (mul_ne_zero two_ne_zero ha.ne),
      if_neg (not_le.2 (hD.trans_lt hd)), if_neg hV]
  · intro e
    rw [kinProfileE, if_pos (by norm_num)]

/-- Witness for the amended C9 at V = 1, a = −1, d = 1. -/
theorem kin_negative_acc_returns_cruise_witness :
    (-1 : ℝ) < 0 ∧ (0 : ℝ) < 1 ∧ (1 : ℝ) ≠ 0 ∧
      kinProfileE 1 (-1) 1 = Except.ok (1 / (-1) + (1 - 1 ^ 2 / (2 * (-1))) / 1, 1) :=
  ⟨by norm_num, by norm_num, by norm_num,
    (kin_negative_acc_returns_cruise 1 (-1) 1 (by norm_num) (by norm_num)
      (by norm_num)).1⟩

/-- Counterexample for C8: at a = π the normalization returns −π, which
lies outside the claimed half-open interval (−π, π]. -/
theorem normalize_angle_pi_counterexample :
    normalize_angle Real.pi = -Real.pi ∧
      ¬(-Real.pi < normalize_angle Real.pi ∧ normalize_angle Real.pi ≤ Real.pi) := by
  have hπ : Real.pi ≠ 0 := Real.pi_ne_zero
  have h1 : (Real.pi + Real.pi) / (2 * Real.pi) = 1 := by
    field_simp
    ring
  have hval : normalize_angle Real.pi = -Real.pi := by
    rw [normalize_angle, pymod, h1, Int.floor_one]
    push_cast
    ring
  exact ⟨hval, fun h => lt_irrefl _ (hval ▸ h.1)⟩

/-- C8 amended: Python's `%` returns a representative in [0, 2π), so
`normalize_angle` maps every real angle into the half-open interval
[−π, π) — closed on the left, open on the right — and differs from its
argument by an integer multiple of 2π. -/
theorem normalize_angle_range (a : ℝ) :
    normalize_angle a ∈ Set.Ico (-Real.pi) Real.pi ∧
      ∃ n : ℤ, a - normalize_angle a = 2 * Real.pi * n := by
  have h2π : (0 : ℝ) < 2 * Real.pi := by positivity
  have hlow := Int.sub_floor_div_mul_nonneg (a + Real.pi) h2π
  have hhigh := Int.sub_floor_div_mul_lt (a + Real.pi) h2π
  refine ⟨⟨?_, ?_⟩, ⟨⌊(a + Real.pi) / (2 * Real.pi)⌋, ?_⟩⟩
  · rw [normalize_angle, pymod]
    nlinarith [hlow]
  · rw [normalize_angle, pymod]
    nlinarith [hhigh]
  · rw [normalize_angle, pymod]
    ring

/-- C4: for every boundary data and duration T > 0 (where the system's
determinant 2T⁹ is nonzero), the quintic built by `QuinticPolynomial`
reproduces position, velocity and acceleration at t = 0 and t = T
exactly. -/
theorem quintic_boundary_conditions (xs vxs axs xe vxe axe T : ℝ) (hT : 0 < T) :
    calc_point (mkQuintic xs vxs axs xe vxe axe T) 0 = xs ∧
    calc_first_derivative (mkQuintic xs vxs axs xe vxe axe T) 0 = vxs ∧
    calc_second_derivative (mkQuintic xs vxs axs xe vxe axe T) 0 = axs ∧
    calc_point (mkQuintic xs vxs axs xe vxe axe T) T = xe ∧
    calc_first_derivative (mkQuintic xs vxs axs xe vxe axe T) T = vxe ∧
    calc_second_derivative (mkQuintic xs vxs axs xe vxe axe T) T = axe := by
  have hA : quinticDetA T = 2 * T ^ 9 := by rw [quinticDetA]; ring
  have hA0 : quinticDetA T ≠ 0 := by
    rw [hA]; positivity
  have k1 :
      quinticDetX (quinticB1 xs vxs axs xe T) (quinticB2 vxs axs vxe T)
          (quinticB3 axs axe) T * T ^ 3
        + quinticDetY (quinticB1 xs vxs axs xe T) (quinticB2 vxs axs vxe T)
          (quinticB3 axs axe) T * T ^ 4
        + quinticDetZ (quinticB1 xs vxs axs xe T) (quinticB2 vxs axs vxe T)
          (quinticB3 axs axe) T * T ^ 5
        = quinticB1 xs vxs axs xe T * quinticDetA T := by
    simp only [quinticDetX, quinticDetY, quinticDetZ, quinticDetA, quinticB1,
      quinticB2, quinticB3]
    ring
  have k2 :
      3 * (quinticDetX (quinticB1 xs vxs axs xe T) (quinticB2 vxs axs vxe T)
          (quinticB3 axs axe) T) * T ^ 2
        + 4 * (quinticDetY (quinticB1 xs vxs axs xe T) (quinticB2 vxs axs vxe T)
          (quinticB3 axs axe) T) * T ^ 3
        + 5 * (quinticDetZ (quinticB1 xs vxs axs xe T) (quinticB2 vxs axs vxe T)
          (quinticB3 axs axe) T) * T ^ 4
        = quinticB2 vxs axs vxe T * quinticDetA T := by
    simp only [quinticDetX, quinticDetY, quinticDetZ, quinticDetA, quinticB1,
      quinticB2, quinticB3]
    ring
  have k3 :
      6 * (quinticDetX (quinticB1 xs vxs axs xe T) (quinticB2 vxs axs vxe T)
          (quinticB3 axs axe) T) * T
        + 12 * (quinticDetY (quinticB1 xs vxs axs xe T) (quinticB2 vxs axs vxe T)
          (quinticB3 axs axe) T) * T ^ 2
        + 20 * (quinticDetZ (quinticB1 xs vxs axs xe T) (quinticB2 vxs axs vxe T)
          (quinticB3 axs axe) T) * T ^ 3
        = quinticB3 axs axe * quinticDetA T := by
    simp only [quinticDetX, quinticDetY, quinticDetZ, quinticDetA, quinticB1,
      quinticB2, quinticB3]
    ring
  refine ⟨?_, ?_, ?_, ?_, ?_, ?_⟩
  · simp only [calc_point, mkQuintic]
    ring
  · simp only [calc_first_derivative, mkQuintic]
    ring
  · simp only [calc_second_derivative, mkQuintic]
    ring
  · have e4 : calc_point (mkQuintic xs vxs axs xe vxe axe T) T
        = xs + vxs * T + axs / 2 * T ^ 2
          + (quinticDetX (quinticB1 xs vxs axs xe T) (quinticB2 vxs axs vxe T)
              (quinticB3 axs axe) T * T ^ 3
            + quinticDetY (quinticB1 xs vxs axs xe T) (quinticB2 vxs axs vxe T)
              (quinticB3 axs axe) T * T ^ 4
            + quinticDetZ (quinticB1 xs vxs axs xe T) (quinticB2 vxs axs vxe T)
              (quinticB3 axs axe) T * T ^ 5) / quinticDetA T := by
      simp only [calc_point, mkQuintic]
      ring
    rw [e4, k1, mul_div_cancel_right₀ _ hA0, quinticB1]
    ring
  · have e5 : calc_first_derivative (mkQuintic xs vxs axs xe vxe axe T) T
        = vxs + 2 * (axs / 2) * T
          + (3 * (quinticDetX (quinticB1 xs vxs axs xe T) (quinticB2 vxs axs vxe T)
              (quinticB3 axs axe) T) * T ^ 2
            + 4 * (quinticDetY (quinticB1 xs vxs axs xe T) (quinticB2 vxs axs vxe T)
              (quinticB3 axs axe) T) * T ^ 3
            + 5 * (quinticDetZ (quinticB1 xs vxs axs xe T) (quinticB2 vxs axs vxe T)
              (quinticB3 axs axe) T) * T ^ 4) / quinticDetA T := by
      simp only [calc_first_derivative, mkQuintic]
      ring
    rw [e5, k2, mul_div_cancel_right₀ _ hA0, quinticB2]
    ring
  · have e6 : calc_second_derivative (mkQuintic xs vxs axs xe vxe axe T) T
        = 2 * (axs / 2)
          + (6 * (quinticDetX (quinticB1 xs vxs axs xe T) (quinticB2 vxs axs vxe T)
              (quinticB3 axs axe) T) * T
            + 12 * (quinticDetY (quinticB1 xs vxs axs xe T) (quinticB2 vxs axs vxe T)
              (quinticB3 axs axe) T) * T ^ 2
            + 20 * (quinticDetZ (quinticB1 xs vxs axs xe T) (quinticB2 vxs axs vxe T)
              (quinticB3 axs axe) T) * T ^ 3) / quinticDetA T := by
      simp only [calc_second_derivative, mkQuintic]
      ring
    rw [e6, k3, mul_div_cancel_right₀ _ hA0, quinticB3]
    ring

/-- Witness for C4 at (0, 0, 0) → (1, 0, 0) over T = 1. -/
theorem quintic_boundary_conditions_witness :
    (0 : ℝ) < 1 ∧ calc_point (mkQuintic 0 0 0 1 0 0 1) 1 = 1 :=
  ⟨by norm_num, (quintic_boundary_conditions 0 0 0 1 0 0 1 (by norm_num)).2.2.2.1⟩

/-- Counterexample for C2: `track.py` does not render the claimed block —
it formats to 6 decimal places, not 4, and its vertex block (with the
extra p="0" r="0" attributes and multi-line Position) differs from the
4-decimal writers' block even on identical field strings. -/
theorem serializer_not_uniform_counterexample :
    track_format ≠ keshihua_format ∧
      track_vertex "0" "0" "0" "0" ≠ keshihua_vertex "0" "0" "0" "0" := by
  constructor <;> decide

/-- C2 amended: the writers of `keshihua.py`, the VUT writer of
`VUTstraight_round.py` and `VT1accTrajectory.py` all format time, x, y
and h with exactly 4 decimal places and render bit-for-bit identical
vertex blocks (VT1acc's block lacking only the trailing newline restored
when blocks are joined); `track.py`, however, formats with 6 decimal
places and emits extra p="0" r="0" attributes in a differently shaped
block. -/
theorem serializer_formats (t x y h : String) :
    keshihua_vertex t x y h = vutstraight_vertex t x y h ∧
    keshihua_vertex t x y h = vt1acc_vertex t x y h ++ "\n" ∧
    keshihua_format = vutstraight_vut_format ∧
    keshihua_format = vt1acc_format ∧
    keshihua_format = ⟨4, 4, 4, 4⟩ ∧
    track_format = ⟨6, 6, 6, 6⟩ := by
  have hlit : ("</Vertex>" : String) ++ "\n" = "</Vertex>\n" := by decide
  refine ⟨rfl, ?_, rfl, rfl, rfl, rfl⟩
  simp only [keshihua_vertex, vt1acc_vertex, String.append_assoc, hlit]

/-- Counterexample for C6: with a gap of 0.5 length units — strictly
above the 0.1 threshold — the number of bridge samples is
int((0.5 / 8.33) / 0.1) = 0, so no bridging Bezier transition is
inserted, refuting the claimed "if and only if". -/
theorem bridge_gap_half_no_points :
    (0.1 : ℝ) < gap_dist (0, 0, 0) (0.5, 0, 0) ∧
      bridgePoints (0, 0, 0) (0.5, 0, 0) 0 = [] := by
  have hg : gap_dist (0, 0, 0) (0.5, 0, 0) = 0.5 := by
    simp only [gap_dist]
    rw [show ((0 : ℝ) - 0.5) ^ 2 + ((0 : ℝ) - 0) ^ 2 = 0.5 ^ 2 by norm_num]
    exact Real.sqrt_sq (by norm_num)
  have hfl : ⌊gap_dist (0, 0, 0) (0.5, 0, 0) / keshihuaSpeed / keshihuaDT⌋ = 0 := by
    rw [hg, keshihuaSpeed, keshihuaDT, Int.floor_eq_zero_iff]
    constructor <;> norm_num
  refine ⟨by rw [hg]; norm_num, ?_⟩
  rw [bridgePoints, if_pos (by rw [hg]; norm_num), hfl]
  rfl

/-- C6 amended: no bridge points are inserted when the gap is at most
0.1 (gap filling is idempotent on an already-continuous sequence); in
general bridge points are inserted iff the gap exceeds 0.1 AND the gap's
traversal time at cruise speed spans at least one whole DT step. -/
theorem bridge_points_insertion (pA pB : ℝ × ℝ × ℝ) (t0 : ℝ)
    (hle : gap_dist pA pB ≤ 0.1) :
    bridgePoints pA pB t0 = [] ∧
    ∀ pC pD : ℝ × ℝ × ℝ,
      (bridgePoints pC pD t0 ≠ [] ↔
        0.1 < gap_dist pC pD ∧
          1 ≤ ⌊gap_dist pC pD / keshihuaSpeed / keshihuaDT⌋) := by
  constructor
  · rw [bridgePoints, if_neg (not_lt.2 hle)]
  · intro pC pD
    by_cases h : 0.1 < gap_dist pC pD
    · rw [bridgePoints, if_pos h]
      show ¬((List.range
          (⌊gap_dist pC pD / keshihuaSpeed / keshihuaDT⌋).toNat).map _ = []) ↔ _
      rw [List.map_eq_nil_iff, List.range_eq_nil, Int.toNat_eq_zero]
      constructor
      · intro h1
        exact ⟨h, by omega⟩
      · rintro ⟨-, h2⟩
        omega
    · rw [bridgePoints, if_neg h]
      simp [h]

/-- Witness for the amended C6: coincident junction poses give gap 0,
below the threshold, and no bridge points. -/
theorem bridge_points_insertion_witness :
    gap_dist (0, 0, 0) (0, 0, 0) ≤ 0.1 ∧ bridgePoints (0, 0, 0) (0, 0, 0) 0 = [] := by
  have hle : gap_dist (0, 0, 0) (0, 0, 0) ≤ 0.1 := by
    have : gap_dist (0, 0, 0) (0, 0, 0) = 0 := by
      simp [gap_dist]
    rw [this]
    norm_num
  exact ⟨hle, (bridge_points_insertion (0, 0, 0) (0, 0, 0) 0 hle).1⟩

/-- C10: in both paired generators the Target trajectory has exactly one
sample per VUT sample, each carrying the VUT sample's timestamp, and a
constant pose in every sample: (−358.68, 81.02, radians(45°)) in
`keshihua.py` and (−358.68, 81.02, 0.87) in `VUTstraight_round.py`. -/
theorem target_static_per_vut_sample (vut : List Sample) :
    ((target_points vut).length = vut.length ∧
      (target_points vut).map Sample.t = vut.map Sample.t ∧
      ∀ s ∈ target_points vut,
        s.x = -358.68 ∧ s.y = 81.02 ∧ s.h = 45 * (Real.pi / 180)) ∧
    ((vutstraight_target_records vut).length = vut.length ∧
      (vutstraight_target_records vut).map Sample.t = vut.map Sample.t ∧
      ∀ s ∈ vutstraight_target_records vut,
        s.x = -358.68 ∧ s.y = 81.02 ∧ s.h = 0.87) := by
  refine ⟨⟨List.length_map _ _, ?_, ?_⟩, ⟨List.length_map _ _, ?_, ?_⟩⟩
  · simp only [target_points, List.map_map]
    rfl
  · intro s hs
    simp only [target_points, List.mem_map] at hs
    obtain ⟨p, -, rfl⟩ := hs
    exact ⟨rfl, rfl, rfl⟩
  · simp only [vutstraight_target_records, List.map_map]
    rfl
  · intro s hs
    simp only [vutstraight_target_records, List.mem_map] at hs
    obtain ⟨p, -, rfl⟩ := hs
    exact ⟨rfl, rfl, rfl⟩

/-- Witness for C10 on a one-sample VUT trajectory. -/
theorem target_static_per_vut_sample_witness :
    (⟨0, -358.68, 81.02, 45 * (Real.pi / 180)⟩ : Sample) ∈
        target_points [⟨0, 1, 2, 3⟩] ∧
      (⟨0, -358.68, 81.02, 45 * (Real.pi / 180)⟩ : Sample).x = -358.68 ∧
      (⟨0, -358.68, 81.02, 45 * (Real.pi / 180)⟩ : Sample).y = 81.02 ∧
      (⟨0, -358.68, 81.02, 45 * (Real.pi / 180)⟩ : Sample).h = 45 * (Real.pi / 180) := by
  have hmem : (⟨0, -358.68, 81.02, 45 * (Real.pi / 180)⟩ : Sample) ∈
      target_points [⟨0, 1, 2, 3⟩] := by
    simp [target_points]
  exact ⟨hmem, (target_static_per_vut_sample [⟨0, 1, 2, 3⟩]).1.2.2 _ hmem⟩

/-- Counterexample for C5: in `generate_trajectory` of
`VUTstraight_round.py` the Bezier loop advances the clock before
appending each sample while the circle loop appends before advancing, so
the first circle sample repeats the last Bezier sample's timestamp and
the emitted times are not strictly increasing. -/
theorem vut_times_not_strictly_increasing :
    ¬ List.Chain' (· < ·) (generate_trajectory.map Sample.t) := by
  intro hch
  rw [generate_trajectory, List.map_append, List.chain'_append] at hch
  obtain ⟨-, -, hb⟩ := hch
  exact lt_irrefl (vutsBezTime 25)
    (hb (vutsBezTime 25) (by rw [vuts_junction_times.1]; rfl)
      (vutsBezTime 25) (by rw [vuts_junction_times.2]; rfl))

/-- C5 amended: `track.py`'s `generate_continuous_path` and
`generate_VT1.py`'s `plan_trajectory` emit strictly increasing times
starting at 0 (every sample advances the clock by exactly DT);
`VUTstraight_round.py`'s `generate_trajectory` starts at 0 and its times
are non-decreasing, but not strictly increasing — the first circular-arc
sample duplicates the timestamp of the last Bezier-transition sample. -/
theorem emitted_times_monotone :
    (∀ (roadSeq : List (List Geometry)) (speed dt : ℝ), 0 < dt →
        List.Chain' (· < ·)
            ((generate_continuous_path roadSeq speed dt).map Sample.t) ∧
          (generate_continuous_path roadSeq speed dt ≠ [] →
            ((generate_continuous_path roadSeq speed dt).map Sample.t).head? =
              some 0)) ∧
    (∀ s c k n : ℕ,
        List.Chain' (· < ·) (planTimes s c k n) ∧
          (planTimes s c k n).head? = some 0) ∧
    (List.Chain' (· ≤ ·) (generate_trajectory.map Sample.t) ∧
      (generate_trajectory.map Sample.t).head? = some 0) := by
  refine ⟨?_, ?_, ?_, ?_⟩
  · intro roadSeq speed dt hdt
    rw [generate_continuous_path, genPath_times]
    constructor
    · apply chain_range_map
      intro i
      push_cast
      nlinarith
    · intro hne
      have hlen := congrArg List.length (genPath_times speed dt roadSeq.flatten 0)
      rw [List.length_map, List.length_map, List.length_range] at hlen
      obtain ⟨m, hm⟩ : ∃ m, totalSteps speed dt roadSeq.flatten = m + 1 := by
        have hnz : (genPath speed dt roadSeq.flatten 0).length ≠ 0 := by
          simpa [List.length_eq_zero] using hne
        exact ⟨totalSteps speed dt roadSeq.flatten - 1, by omega⟩
      rw [hm, List.range_succ_eq_map, List.map_cons, List.head?_cons]
      simp
  · intro s c k n
    rw [planTimes_eq]
    constructor
    · apply chain_range_map
      intro i
      rw [genVT1DT]
      have h01 : (0 : ℝ) < 0.1 := by norm_num
      push_cast
      nlinarith
    · have hsum : s + 1 + c + k + n + 19 = s + c + k + n + 19 + 1 := by omega
      rw [hsum, List.range_succ_eq_map, List.map_cons, List.head?_cons]
      simp
  · rw [generate_trajectory, List.map_append, List.chain'_append]
    refine ⟨?_, ?_, ?_⟩
    · rw [List.map_append, List.chain'_append]
      refine ⟨?_, ?_, ?_⟩
      · rw [vutsStraight_times]
        apply chain_range_map
        intro i
        rw [vutsDT]
        have h01 : (0 : ℝ) < 0.1 := by norm_num
        push_cast
        nlinarith
      · rw [vutsBez_times]
        apply chain_range_map
        intro i
        exact vutsBezTime_mono (i + 1)
      · intro x hx y hy
        rw [vutsStraight_times, List.range_succ, List.map_append,
          List.getLast?_append, List.map_singleton, List.getLast?_singleton,
          option_some_or] at hx
        rw [vutsBez_times, show (25 : ℕ) = 24 + 1 from rfl,
          List.range_succ_eq_map, List.map_cons, List.head?_cons] at hy
        simp only [Option.mem_def, Option.some.injEq] at hx hy
        rw [← hx, ← hy]
        calc (vutsStepsStraight : ℝ) * vutsDT
            ≤ ((vutsStepsStraight : ℝ) + 1) * vutsDT := by
              refine mul_le_mul_of_nonneg_right (by linarith) ?_
              rw [vutsDT]
              norm_num
          _ = vutsBezTime 0 := rfl
          _ ≤ vutsBezTime (0 + 1) := vutsBezTime_mono 0
    · rw [vutsCircle_times]
      apply chain_range_map
      intro i
      rw [vutsDT]
      have h01 : (0 : ℝ) < 0.1 := by norm_num
      push_cast
      nlinarith
    · intro x hx y hy
      rw [vuts_junction_times.1] at hx
      rw [vuts_junction_times.2] at hy
      simp only [Option.mem_def, Option.some.injEq] at hx hy
      rw [← hx, ← hy]
  · rw [generate_trajectory, List.map_append, List.map_append,
      List.head?_append, List.head?_append, vutsStraight_times,
      List.range_succ_eq_map, List.map_cons, List.head?_cons,
      option_some_or, option_some_or]
    simp

/-- Witness for the amended C5: the `track.py` part applied to its
hardcoded configuration — the VUT road sequence at 30 km/h, dt = 0.1. -/
theorem emitted_times_monotone_witness :
    (0 : ℝ) < 0.1 ∧
      (List.Chain' (· < ·)
          ((generate_continuous_path vut_path (30 / 3.6) 0.1).map Sample.t) ∧
        (generate_continuous_path vut_path (30 / 3.6) 0.1 ≠ [] →
          ((generate_continuous_path vut_path (30 / 3.6) 0.1).map Sample.t).head? =
            some 0)) :=
  ⟨by norm_num, emitted_times_monotone.1 vut_path (30 / 3.6) 0.1 (by norm_num)⟩

end OpenScenario
